import Mathlib

/-!
Shallow embedding of
`sdk/appconfiguration/azure-appconfiguration-provider/azure/appconfiguration/provider/_replica_client.py`
(the `ReplicaClient` endpoint wrapper and the `ReplicaClientManager`).

The transport client (`AzureAppConfigurationClient`) is external; it is
modelled as an oracle `Transport` giving, for every conditional get and every
list request, the response the remote store produces.  Python dictionaries
that matter only by value are association lists (`SentinelMap`, insertion
ordered like Python dicts); the dictionaries whose object identity matters
(`refresh_on` and the `sentinel_keys` default of
`load_configuration_settings`) go through an explicit store mapping
references (naturals) to dict contents, so in-place mutation and aliasing are
visible.  Python ints are `Int`/`Nat` (arbitrary precision, no overflow);
`time.time() * 1000` and `random.uniform(0.0, 1.0)` are real-valued inputs
modelled as `Rat` parameters (`now_ms`, `jitter`).  Raised exceptions are
`Except` errors.
-/

/-- One remote configuration entry (`azure.appconfiguration.ConfigurationSetting`).
`isFeatureFlag` models `isinstance(config, FeatureFlagConfigurationSetting)`. -/
structure ConfigurationSetting where
  key : String
  label : String
  etag : Option String
  value : String
  isFeatureFlag : Bool
  deriving DecidableEq

/-- Outcome of one conditional `get_configuration_setting` call on the
transport client: a normal return (`none` models the not-modified `None`
return) or a raised `HttpResponseError` carrying its status code. -/
inductive GetResult where
  | result (setting : Option ConfigurationSetting)
  | httpError (status : Nat)
  deriving DecidableEq

/-- Errors that propagate out of the embedded operations: an
`HttpResponseError` re-raised by `_check_configuration_setting`, or the
decoding error raised by `json.loads` in `load_feature_flags`. -/
inductive PyError where
  | http (status : Nat)
  | jsonDecode
  deriving DecidableEq

/-- Oracle for the externally owned transport client `self._client`:
`getConditional key label etag` is what
`get_configuration_setting(key=key, label=label, etag=etag,
match_condition=MatchConditions.IfModified)` does, and
`list keyFilter labelFilter` is the entry sequence
`list_configuration_settings(key_filter, label_filter)` yields. -/
structure Transport where
  getConditional : String → String → Option String → GetResult
  list : String → String → List ConfigurationSetting

/-- A `SettingSelector`: the (key filter, label filter) pair of one selector. -/
structure SettingSelector where
  key_filter : String
  label_filter : String
  deriving DecidableEq

/-- A Python dict mapping a `(key, label)` pair to an etag (itself possibly
`None`), as an insertion-ordered association list — the iteration order of a
Python dict. -/
abbrev SentinelMap := List ((String × String) × Option String)

/-- Python `k in d` on a `SentinelMap`. -/
def dictContains (m : SentinelMap) (k : String × String) : Bool :=
  m.any (fun e => decide (e.1 = k))

/-- Python `d[k] = v` on a `SentinelMap`: updating an existing key keeps its
position, a new key is appended (Python dict insertion order). -/
def dictSet (m : SentinelMap) (k : String × String) (v : Option String) : SentinelMap :=
  if dictContains m k then m.map (fun e => if e.1 = k then (k, v) else e)
  else m ++ [(k, v)]

/-- Heap of sentinel dictionaries: a reference (`Nat`) names one Python dict
object; two equal references are the same object. -/
abbrev Store := Nat → SentinelMap

/-- Mutation of the dict object that `r` points to. -/
def storeWrite (σ : Store) (r : Nat) (m : SentinelMap) : Store :=
  fun r2 => if r2 = r then m else σ r2

/-- The mutable per-endpoint state of the `ReplicaClient` dataclass.  The
wrapped transport client `_client` is external; the only behavior of it the
manager observes directly is whether its `close()` raises, modelled by
`close_raises`. -/
structure ReplicaClient where
  endpoint : String
  close_raises : Bool
  backoff_end_time : Rat := 0
  failed_attempts : Nat := 0
  deriving DecidableEq

/-- The `ReplicaClientManager` state: the managed clients (typed
`Dict[str, ReplicaClient]` in the source but iterated directly as a sequence
of clients, modelled as the ordered client list) and the configured backoff
bounds in seconds. -/
structure ReplicaClientManager where
  replica_clients : List ReplicaClient
  min_backoff : Int
  max_backoff : Int

/-- ReplicaClient._check_configuration_setting (source lines 79-116):
conditional fetch of one watched pair.  A returned entry means a change; a
`None` return (not modified) means no change; a 404 with a known prior etag
is a deletion, hence a change; a 404 with no prior etag falls through to the
final no-change return; any other HTTP error is re-raised. -/
def _check_configuration_setting (t : Transport) (key label : String)
    (etag : Option String) : Except PyError (Bool × Option ConfigurationSetting) :=
  match t.getConditional key label etag with
  | .result (some updated_sentinel) => .ok (true, some updated_sentinel)
  | .result none => .ok (false, none)
  | .httpError status =>
    if status = 404 then
      match etag with
      | some _ => .ok (true, none)
      | none => .ok (false, none)
    else .error (.http status)

/-- One step of the inner loop of `load_configuration_settings` (source lines
125-135) for one listed entry `config`.  The
`isinstance(config, FeatureFlagConfigurationSetting)` branch of the source is
a bare `pass` (there is no `continue`), so it has no effect and every entry
is appended.  When `(config.key, config.label)` is a key of the dict that
`refreshRef` points to, the dict `sentinelRef` points to is updated in place
with the entry's etag. -/
def load_cfg_step (refreshRef sentinelRef : Nat)
    (acc : List ConfigurationSetting × Store) (config : ConfigurationSetting) :
    List ConfigurationSetting × Store :=
  let cs := acc.1 ++ [config]
  if dictContains (acc.2 refreshRef) (config.key, config.label) then
    (cs, storeWrite acc.2 sentinelRef
      (dictSet (acc.2 sentinelRef) (config.key, config.label) config.etag))
  else (cs, acc.2)

/-- ReplicaClient.load_configuration_settings (source lines 118-136).
`refreshRef` is the reference to the caller's `refresh_on` dict;
`sentinel_keys_arg` models the optional `sentinel_keys` keyword argument,
which defaults to the very same object
(`sentinel_keys = kwargs.pop("sentinel_keys", refresh_on)`).  Returns the
settings list, the reference of the returned `sentinel_keys` dict, and the
store after the in-place updates. -/
def load_configuration_settings (t : Transport) (selects : List SettingSelector)
    (refreshRef : Nat) (sentinel_keys_arg : Option Nat) (σ : Store) :
    List ConfigurationSetting × Nat × Store :=
  let sentinelRef := sentinel_keys_arg.getD refreshRef
  let r := selects.foldl
    (fun acc select =>
      (t.list select.key_filter select.label_filter).foldl
        (load_cfg_step refreshRef sentinelRef) acc)
    ([], σ)
  (r.1, sentinelRef, r.2)

/-- Modelled from the spec: the reserved feature-flag key namespace constant
(`FEATURE_FLAG_PREFIX`, imported from `._constants`, a module that is not
among the analysed sources); the spec describes it as the feature-flag
namespace marker prepended to every feature-flag selector's key filter. -/
def FEATURE_FLAG_PREF : String := ".appconfig.featureflag/"

/-- Inner loop of `load_feature_flags` (source lines 147-151): each listed
entry's value goes through `json.loads` (`none` models a raised decode error,
which aborts the whole call); with refresh enabled the fresh sentinel dict
records the entry's etag. -/
def load_ff_flags_loop {α : Type} (jsonLoads : String → Option α)
    (feature_flag_refresh_enabled : Bool) :
    List ConfigurationSetting → List α × SentinelMap →
    Except PyError (List α × SentinelMap)
  | [], acc => .ok acc
  | feature_flag :: rest, acc =>
    match jsonLoads feature_flag.value with
    | none => .error .jsonDecode
    | some decoded =>
      load_ff_flags_loop jsonLoads feature_flag_refresh_enabled rest
        (acc.1 ++ [decoded],
         if feature_flag_refresh_enabled then
           dictSet acc.2 (feature_flag.key, feature_flag.label) feature_flag.etag
         else acc.2)

/-- Outer loop of `load_feature_flags` over the feature-flag selectors
(source lines 143-151): each selector lists the feature-flag namespace
restriction of its key filter. -/
def load_ff_selector_loop {α : Type} (jsonLoads : String → Option α) (t : Transport)
    (feature_flag_refresh_enabled : Bool) :
    List SettingSelector → List α × SentinelMap →
    Except PyError (List α × SentinelMap)
  | [], acc => .ok acc
  | select :: rest, acc =>
    match load_ff_flags_loop jsonLoads feature_flag_refresh_enabled
        (t.list (FEATURE_FLAG_PREF ++ select.key_filter) select.label_filter) acc with
    | .error e => .error e
    | .ok acc2 => load_ff_selector_loop jsonLoads t feature_flag_refresh_enabled rest acc2

/-- ReplicaClient.load_feature_flags (source lines 138-152): decoded flags
and, when `feature_flag_refresh_enabled`, a fresh sentinel dict of the loaded
pairs' etags. -/
def load_feature_flags {α : Type} (jsonLoads : String → Option α) (t : Transport)
    (feature_flag_selectors : List SettingSelector)
    (feature_flag_refresh_enabled : Bool) :
    Except PyError (List α × SentinelMap) :=
  load_ff_selector_loop jsonLoads t feature_flag_refresh_enabled
    feature_flag_selectors ([], [])

/-- Loop of `refresh_configuration_settings` (source lines 168-175) over the
watched items of the local copy `updated_sentinel_keys = dict(refresh_on)`:
every pair goes through `_check_configuration_setting`; a raised error
propagates; a detected change sets `need_refresh`; a replacement entry
updates the local copy's etag for the pair just checked. -/
def refresh_check_loop (t : Transport) :
    List ((String × String) × Option String) → Bool → SentinelMap →
    Except PyError (Bool × SentinelMap)
  | [], need_refresh, updated_sentinel_keys => .ok (need_refresh, updated_sentinel_keys)
  | ((key, label), etag) :: rest, need_refresh, updated_sentinel_keys =>
    match _check_configuration_setting t key label etag with
    | .error e => .error e
    | .ok (changed, updated_sentinel) =>
      refresh_check_loop t rest (need_refresh || changed)
        (match updated_sentinel with
         | some s => dictSet updated_sentinel_keys (key, label) s.etag
         | none => updated_sentinel_keys)

/-- ReplicaClient.refresh_configuration_settings (source lines 154-180).  On
a detected change, one call to `load_configuration_settings` produces the
returned dict and entries (the incrementally updated local copy is
discarded); otherwise the result is `False, refresh_on, []` with the caller's
dict untouched. -/
def refresh_configuration_settings (t : Transport) (selects : List SettingSelector)
    (refreshRef : Nat) (sentinel_keys_arg : Option Nat) (σ : Store) :
    Except PyError ((Bool × Nat × List ConfigurationSetting) × Store) :=
  match refresh_check_loop t (σ refreshRef) false (σ refreshRef) with
  | .error e => .error e
  | .ok (need_refresh, _updated_sentinel_keys) =>
    if need_refresh then
      let r := load_configuration_settings t selects refreshRef sentinel_keys_arg σ
      .ok ((true, r.2.1, r.1), r.2.2)
    else .ok ((false, refreshRef, []), σ)

/-- Loop of `refresh_feature_flags` (source lines 195-201) over the watched
items of `feature_flag_sentinel_keys = dict(refresh_on)`.  In the source the
result pair of `_check_configuration_setting` is bound to `changed` without
tuple unpacking, and a two-element tuple is always truthy in Python, so
whenever the check returns at all (rather than raising) the reload branch is
taken on the first watched pair, whatever the detection outcome was. -/
def refresh_ff_loop {α : Type} (jsonLoads : String → Option α) (t : Transport)
    (feature_flag_selectors : List SettingSelector) :
    List ((String × String) × Option String) →
    Except PyError (Bool × Option SentinelMap × Option (List α))
  | [] => .ok (false, none, none)
  | ((key, label), etag) :: _rest =>
    match _check_configuration_setting t key label etag with
    | .error e => .error e
    | .ok _changed =>
      match load_feature_flags jsonLoads t feature_flag_selectors true with
      | .error e => .error e
      | .ok (feature_flags, feature_flag_sentinel_keys) =>
        .ok (true, some feature_flag_sentinel_keys, some feature_flags)

/-- ReplicaClient.refresh_feature_flags (source lines 182-202).  The
feature-flag sentinel dict never aliases the caller's (the returned dict
comes fresh out of `load_feature_flags`), so this path is modelled on plain
values; `(false, none, none)` is the source's `False, None, None`. -/
def refresh_feature_flags {α : Type} (jsonLoads : String → Option α) (t : Transport)
    (refresh_on : SentinelMap) (feature_flag_selectors : List SettingSelector) :
    Except PyError (Bool × Option SentinelMap × Option (List α)) :=
  refresh_ff_loop jsonLoads t feature_flag_selectors refresh_on

/-- ReplicaClientManager.get_active_clients (source lines 222-227); `now_ms`
models the value of `time.time() * 1000` during the call. -/
def get_active_clients (m : ReplicaClientManager) (now_ms : Rat) : List ReplicaClient :=
  m.replica_clients.foldl
    (fun active_clients client =>
      if client.backoff_end_time ≤ now_ms then active_clients ++ [client]
      else active_clients) []

/-- ReplicaClientManager._calculate_backoff (source lines 237-254); `jitter`
models the draw of `random.uniform(0.0, 1.0)`, and `2 ^ min attempts 63` is
`1 << min(attempts, max_attempts)`.  Python ints are unbounded, so the
`calculated_milliseconds <= 0` overflow guard is kept but can only fire for
degenerate negative configurations. -/
def _calculate_backoff (m : ReplicaClientManager) (attempts : Nat) (jitter : Rat) : Rat :=
  let max_attempts : Nat := 63
  let ms_per_second : Int := 1000
  let min_backoff_milliseconds : Int := m.min_backoff * ms_per_second
  let max_backoff_milliseconds : Int := m.max_backoff * ms_per_second
  if m.max_backoff ≤ m.min_backoff then (min_backoff_milliseconds : Rat)
  else
    let calculated_milliseconds : Int :=
      max 1 min_backoff_milliseconds * 2 ^ (min attempts max_attempts)
    let clamped_milliseconds : Int :=
      if max_backoff_milliseconds < calculated_milliseconds ∨ calculated_milliseconds ≤ 0
      then max_backoff_milliseconds
      else calculated_milliseconds
    (min_backoff_milliseconds : Rat) +
      jitter * ((clamped_milliseconds : Rat) - (min_backoff_milliseconds : Rat))

/-- ReplicaClientManager.backoff (source lines 229-232): one failure report
for `client`; `now_ms` models `time.time() * 1000` at the time of the call. -/
def backoff (m : ReplicaClientManager) (client : ReplicaClient)
    (now_ms jitter : Rat) : ReplicaClient :=
  let client2 := { client with failed_attempts := client.failed_attempts + 1 }
  let backoff_time := _calculate_backoff m client2.failed_attempts jitter
  { client2 with backoff_end_time := now_ms + backoff_time }

/-- ReplicaClientManager.close (source lines 256-258): `client._client.close()`
for each managed client in order, with no exception handling.  The returned
list is the trace of endpoints whose underlying close was invoked; the `Bool`
is true when one close raised (the loop then stops and the exception
propagates). -/
def close_clients : List ReplicaClient → List String × Bool
  | [] => ([], false)
  | client :: rest =>
    if client.close_raises then ([client.endpoint], true)
    else
      let r := close_clients rest
      (client.endpoint :: r.1, r.2)

/-- Whether `_check_configuration_setting` reports the watched pair `p` as
changed (false also when the check raises). -/
def checkChanged (t : Transport) (p : (String × String) × Option String) : Bool :=
  match _check_configuration_setting t p.1.1 p.1.2 p.2 with
  | .ok (changed, _) => changed
  | .error _ => false

/-- All entries the transport lists for a selector list, in selector order. -/
def listedSettings (t : Transport) : List SettingSelector → List ConfigurationSetting
  | [] => []
  | select :: rest =>
    t.list select.key_filter select.label_filter ++ listedSettings t rest

/-- Folding the watched-etag refresh of `load_configuration_settings` over a
dict value: each listed entry whose pair is a key of the dict overwrites that
pair's etag. -/
def updateWatchedEtags (m : SentinelMap) : List ConfigurationSetting → SentinelMap
  | [] => m
  | config :: rest =>
    updateWatchedEtags
      (if dictContains m (config.key, config.label) then
        dictSet m (config.key, config.label) config.etag
       else m) rest

/-! ## Concrete fixtures used by the closed theorems below -/

/-- Transport whose conditional gets always report not modified and whose
lists are empty. -/
def transportNoChange : Transport := ⟨fun _ _ _ => .result none, fun _ _ => []⟩

/-- A selector matching everything. -/
def selectAll : SettingSelector := ⟨"*", "*"⟩

/-- A feature-flag-tagged entry (`FeatureFlagConfigurationSetting`). -/
def ffEntry : ConfigurationSetting :=
  ⟨".appconfig.featureflag/beta", "prod", some "e1", "7", true⟩

/-- Transport that lists exactly the feature-flag entry `ffEntry`. -/
def transportListsFF : Transport := ⟨fun _ _ _ => .result none, fun _ _ => [ffEntry]⟩

/-- A replacement entry for the watched pair `("k", "l")`. -/
def newSetting : ConfigurationSetting := ⟨"k", "l", some "v2", "val", false⟩

/-- Transport on which the watched pair has changed (conditional gets return
the replacement entry) and whose lists yield that entry. -/
def transportChanged : Transport :=
  ⟨fun _ _ _ => .result (some newSetting), fun _ _ => [newSetting]⟩

/-- An entry whose value the JSON decoder rejects. -/
def badEntry : ConfigurationSetting :=
  ⟨".appconfig.featureflag/bad", "prod", some "e2", "bad", true⟩

/-- Transport that lists `badEntry`. -/
def transportBadJson : Transport := ⟨fun _ _ _ => .result none, fun _ _ => [badEntry]⟩

/-- A JSON decoder that rejects exactly the value of `badEntry`. -/
def jsonLoadsBad : String → Option Unit := fun s => if s = "bad" then none else some ()

/-- The empty heap. -/
def emptyStore : Store := fun _ => []

/-- A heap whose every reference holds the one-pair dict watching
`("k", "l")` at etag `"v1"`. -/
def storeOnePair : Store := fun _ => [(("k", "l"), some "v1")]

/-- A manager configured with the provider defaults, 30 s minimum and 600 s
maximum backoff, and no clients. -/
def mgr0 : ReplicaClientManager := ⟨[], 30, 600⟩

/-- A fresh endpoint client. -/
def client0 : ReplicaClient := ⟨"primary", false, 0, 0⟩

/-- An endpoint whose underlying transport close raises. -/
def clientA : ReplicaClient := ⟨"a", true, 0, 0⟩

/-- An endpoint whose underlying transport close succeeds. -/
def clientB : ReplicaClient := ⟨"b", false, 0, 0⟩

/-! ## Helper lemmas -/

lemma storeWrite_read_self (σ : Store) (r : Nat) (m : SentinelMap) :
    storeWrite σ r m r = m := by
  simp [storeWrite]

lemma storeWrite_self (σ : Store) (r : Nat) : storeWrite σ r (σ r) = σ := by
  funext r2
  by_cases h : r2 = r <;> simp [storeWrite, h]

lemma storeWrite_write (σ : Store) (r : Nat) (m1 m2 : SentinelMap) :
    storeWrite (storeWrite σ r m1) r m2 = storeWrite σ r m2 := by
  funext r2
  by_cases h : r2 = r <;> simp [storeWrite, h]

lemma updateWatchedEtags_append (m : SentinelMap) (l1 l2 : List ConfigurationSetting) :
    updateWatchedEtags m (l1 ++ l2) = updateWatchedEtags (updateWatchedEtags m l1) l2 := by
  induction l1 generalizing m with
  | nil => simp [updateWatchedEtags]
  | cons c l1 ih =>
    simp only [List.cons_append, updateWatchedEtags]
    exact ih _

lemma load_cfg_step_fold (refreshRef : Nat) (cfgs : List ConfigurationSetting) :
    ∀ (cs : List ConfigurationSetting) (σ : Store),
      cfgs.foldl (load_cfg_step refreshRef refreshRef) (cs, σ)
        = (cs ++ cfgs, storeWrite σ refreshRef (updateWatchedEtags (σ refreshRef) cfgs)) := by
  induction cfgs with
  | nil => intro cs σ; simp [updateWatchedEtags, storeWrite_self]
  | cons c cfgs ih =>
    intro cs σ
    simp only [List.foldl_cons]
    by_cases h : dictContains (σ refreshRef) (c.key, c.label)
    · rw [show load_cfg_step refreshRef refreshRef (cs, σ) c
          = (cs ++ [c], storeWrite σ refreshRef
              (dictSet (σ refreshRef) (c.key, c.label) c.etag)) from by
        simp [load_cfg_step, h]]
      rw [ih]
      simp [storeWrite_read_self, storeWrite_write, updateWatchedEtags, h]
    · rw [show load_cfg_step refreshRef refreshRef (cs, σ) c = (cs ++ [c], σ) from by
        simp [load_cfg_step, h]]
      rw [ih]
      simp [updateWatchedEtags, h]

lemma load_cfg_selects_fold (t : Transport) (refreshRef : Nat)
    (selects : List SettingSelector) :
    ∀ (cs : List ConfigurationSetting) (σ : Store),
      selects.foldl
        (fun acc select =>
          (t.list select.key_filter select.label_filter).foldl
            (load_cfg_step refreshRef refreshRef) acc) (cs, σ)
        = (cs ++ listedSettings t selects,
           storeWrite σ refreshRef
             (updateWatchedEtags (σ refreshRef) (listedSettings t selects))) := by
  induction selects with
  | nil => intro cs σ; simp [listedSettings, updateWatchedEtags, storeWrite_self]
  | cons select selects ih =>
    intro cs σ
    simp only [List.foldl_cons]
    rw [load_cfg_step_fold, ih]
    simp [listedSettings, storeWrite_read_self, storeWrite_write, updateWatchedEtags_append]

lemma load_cfg_alias (t : Transport) (selects : List SettingSelector)
    (refreshRef : Nat) (σ : Store) :
    load_configuration_settings t selects refreshRef none σ
      = (listedSettings t selects, refreshRef,
         storeWrite σ refreshRef
           (updateWatchedEtags (σ refreshRef) (listedSettings t selects))) := by
  simp only [load_configuration_settings, Option.getD_none]
  rw [load_cfg_selects_fold]
  simp

lemma refresh_check_loop_ok (t : Transport)
    (items : List ((String × String) × Option String)) :
    ∀ (need : Bool) (upd : SentinelMap),
      (∀ p ∈ items, ∃ r, _check_configuration_setting t p.1.1 p.1.2 p.2 = .ok r) →
      ∃ upd2, refresh_check_loop t items need upd
        = .ok (need || items.any (fun p => checkChanged t p), upd2) := by
  induction items with
  | nil => intro need upd _; exact ⟨upd, by simp [refresh_check_loop]⟩
  | cons p rest ih =>
    obtain ⟨⟨key, label⟩, etag⟩ := p
    intro need upd hok
    obtain ⟨⟨changed, us⟩, hr⟩ := hok ((key, label), etag) (List.mem_cons_self _ _)
    have hr2 : _check_configuration_setting t key label etag = .ok (changed, us) := hr
    have hok2 : ∀ q ∈ rest, ∃ r, _check_configuration_setting t q.1.1 q.1.2 q.2 = .ok r :=
      fun q hq => hok q (List.mem_cons_of_mem _ hq)
    have hcc : checkChanged t ((key, label), etag) = changed := by
      simp [checkChanged, hr2]
    cases us with
    | none =>
      obtain ⟨upd2, h2⟩ := ih (need || changed) upd hok2
      refine ⟨upd2, ?_⟩
      simp only [refresh_check_loop, hr2]
      rw [h2]
      simp [hcc, Bool.or_assoc]
    | some s =>
      obtain ⟨upd2, h2⟩ := ih (need || changed) (dictSet upd (key, label) s.etag) hok2
      refine ⟨upd2, ?_⟩
      simp only [refresh_check_loop, hr2]
      rw [h2]
      simp [hcc, Bool.or_assoc]

lemma refresh_cfg_characterization (t : Transport) (selects : List SettingSelector)
    (refreshRef : Nat) (sentinel_keys_arg : Option Nat) (σ : Store)
    (hok : ∀ p ∈ σ refreshRef,
      ∃ r, _check_configuration_setting t p.1.1 p.1.2 p.2 = .ok r) :
    refresh_configuration_settings t selects refreshRef sentinel_keys_arg σ
      = if (σ refreshRef).any (fun p => checkChanged t p) then
          .ok ((true,
                (load_configuration_settings t selects refreshRef sentinel_keys_arg σ).2.1,
                (load_configuration_settings t selects refreshRef sentinel_keys_arg σ).1),
               (load_configuration_settings t selects refreshRef sentinel_keys_arg σ).2.2)
        else .ok ((false, refreshRef, []), σ) := by
  obtain ⟨upd2, h⟩ := refresh_check_loop_ok t (σ refreshRef) false (σ refreshRef) hok
  unfold refresh_configuration_settings
  rw [h]
  cases hany : (σ refreshRef).any (fun p => checkChanged t p) <;>
    simp [hany]

lemma foldl_active_eq_filter (now_ms : Rat) (l : List ReplicaClient) :
    ∀ acc : List ReplicaClient,
      l.foldl (fun active_clients client =>
        if client.backoff_end_time ≤ now_ms then active_clients ++ [client]
        else active_clients) acc
      = acc ++ l.filter (fun client => decide (client.backoff_end_time ≤ now_ms)) := by
  induction l with
  | nil => intro acc; simp
  | cons c l ih =>
    intro acc
    simp only [List.foldl_cons, List.filter_cons]
    by_cases h : c.backoff_end_time ≤ now_ms
    · simp [h, ih]
    · simp [h, ih]

lemma clamp_bounds (minms maxms C : Int) (hlt : minms < maxms) (hC : minms ≤ C) :
    minms ≤ (if maxms < C ∨ C ≤ 0 then maxms else C) ∧
      (if maxms < C ∨ C ≤ 0 then maxms else C) ≤ maxms := by
  by_cases hcond : maxms < C ∨ C ≤ 0
  · rw [if_pos hcond]
    exact ⟨le_of_lt hlt, le_refl _⟩
  · rw [if_neg hcond]
    push_neg at hcond
    exact ⟨hC, hcond.1⟩

lemma calcC_ge_min (m : ReplicaClientManager) (attempts : Nat) :
    m.min_backoff * 1000 ≤ max 1 (m.min_backoff * 1000) * 2 ^ (min attempts 63) := by
  have h0 : (0 : Int) < 2 ^ (min attempts 63) := pow_pos (by norm_num) _
  have h1 : (1 : Int) ≤ 2 ^ (min attempts 63) := by omega
  calc m.min_backoff * 1000 ≤ max 1 (m.min_backoff * 1000) := le_max_right _ _
    _ = max 1 (m.min_backoff * 1000) * 1 := (mul_one _).symm
    _ ≤ max 1 (m.min_backoff * 1000) * 2 ^ (min attempts 63) :=
        mul_le_mul_of_nonneg_left h1 (le_trans zero_le_one (le_max_left _ _))

lemma jitter_lower (minq B jitter : Rat) (hB : minq ≤ B) (hj0 : 0 ≤ jitter) :
    minq ≤ minq + jitter * (B - minq) := by nlinarith

lemma jitter_upper (maxq minq B jitter : Rat) (hBmax : B ≤ maxq) (hBmin : minq ≤ B)
    (hj1 : jitter ≤ 1) :
    minq + jitter * (B - minq) ≤ maxq := by nlinarith

lemma calculate_backoff_degenerate (m : ReplicaClientManager) (attempts : Nat)
    (jitter : Rat) (h : m.max_backoff ≤ m.min_backoff) :
    _calculate_backoff m attempts jitter = ((m.min_backoff * 1000 : Int) : Rat) := by
  simp only [_calculate_backoff]
  rw [if_pos h]

lemma calculate_backoff_ge_min (m : ReplicaClientManager) (attempts : Nat) (jitter : Rat)
    (hj0 : 0 ≤ jitter) :
    ((m.min_backoff * 1000 : Int) : Rat) ≤ _calculate_backoff m attempts jitter := by
  simp only [_calculate_backoff]
  by_cases h : m.max_backoff ≤ m.min_backoff
  · rw [if_pos h]
  · rw [if_neg h]
    push_neg at h
    have hlt : m.min_backoff * 1000 < m.max_backoff * 1000 := by
      have : (0 : Int) < 1000 := by norm_num
      exact (mul_lt_mul_right this).mpr h
    have hb := clamp_bounds (m.min_backoff * 1000) (m.max_backoff * 1000)
      (max 1 (m.min_backoff * 1000) * 2 ^ (min attempts 63)) hlt (calcC_ge_min m attempts)
    exact jitter_lower _ _ jitter (Int.cast_le.mpr hb.1) hj0

lemma calculate_backoff_le_max (m : ReplicaClientManager) (attempts : Nat) (jitter : Rat)
    (h : m.min_backoff < m.max_backoff) (_hj0 : 0 ≤ jitter) (hj1 : jitter ≤ 1) :
    _calculate_backoff m attempts jitter ≤ ((m.max_backoff * 1000 : Int) : Rat) := by
  simp only [_calculate_backoff]
  rw [if_neg (not_le.mpr h)]
  have hlt : m.min_backoff * 1000 < m.max_backoff * 1000 := by
    have : (0 : Int) < 1000 := by norm_num
    exact (mul_lt_mul_right this).mpr h
  have hb := clamp_bounds (m.min_backoff * 1000) (m.max_backoff * 1000)
    (max 1 (m.min_backoff * 1000) * 2 ^ (min attempts 63)) hlt (calcC_ge_min m attempts)
  exact jitter_upper _ _ _ jitter (Int.cast_le.mpr hb.2) (Int.cast_le.mpr hb.1) hj1

lemma close_clients_all_ok : ∀ clients : List ReplicaClient,
    (∀ c ∈ clients, c.close_raises = false) →
    close_clients clients = (clients.map (fun c => c.endpoint), false) := by
  intro clients
  induction clients with
  | nil => intro _; rfl
  | cons c rest ih =>
    intro h
    have hc : c.close_raises = false := h c (List.mem_cons_self _ _)
    simp [close_clients, hc, ih (fun x hx => h x (List.mem_cons_of_mem _ hx))]

lemma close_clients_stops (bad : ReplicaClient) (rest : List ReplicaClient)
    (hbad : bad.close_raises = true) :
    ∀ good : List ReplicaClient, (∀ c ∈ good, c.close_raises = false) →
      close_clients (good ++ bad :: rest)
        = (good.map (fun c => c.endpoint) ++ [bad.endpoint], true) := by
  intro good
  induction good with
  | nil => intro _; simp [close_clients, hbad]
  | cons c g ih =>
    intro hgood
    have hc : c.close_raises = false := hgood c (List.mem_cons_self _ _)
    simp [close_clients, hc, ih (fun x hx => hgood x (List.mem_cons_of_mem _ hx))]

/-! ## Claim theorems -/

/-- C1: the claim says that when every watched pair of a non-empty sentinel
map reports no change, `refresh_feature_flags` returns `(false, none, none)`
and performs no reload.  The code violates this: `changed` is bound to the
un-unpacked result pair of `_check_configuration_setting`, which is always
truthy, so even though the only watched pair here reports `(false, none)`
(not modified), the call performs the full reload and returns the
change-detected result `(true, some [], some [])`. -/
theorem refresh_feature_flags_reloads_without_change :
    _check_configuration_setting transportNoChange "k" "l" (some "v1") = .ok (false, none) ∧
    refresh_feature_flags (fun s => some s) transportNoChange
      [(("k", "l"), some "v1")] [selectAll] = .ok (true, some [], some []) :=
  ⟨rfl, rfl⟩

/-- C2: the claim says `load_configuration_settings` excludes feature-flag
entries from the returned plain-settings list.  The code violates this: the
`isinstance(config, FeatureFlagConfigurationSetting)` branch is a bare `pass`
with no `continue`, so the feature-flag-tagged entry `ffEntry` listed by a
non-prefixed selector is appended to the returned list. -/
theorem load_configuration_settings_keeps_feature_flag :
    ffEntry.isFeatureFlag = true ∧
    (load_configuration_settings transportListsFF [selectAll] 0 none emptyStore).1
      = [ffEntry] :=
  ⟨rfl, rfl⟩

/-- C3: for every attempts count at least 1 and every jitter draw in
`[0, 1]`, if `max_backoff ≤ min_backoff` then `_calculate_backoff` returns
exactly `min_backoff * 1000` regardless of attempts; otherwise the returned
backoff lies within `[min_backoff * 1000, max_backoff * 1000]` inclusive. -/
theorem calculate_backoff_bounds (m : ReplicaClientManager) (attempts : Nat)
    (jitter : Rat) (_hatt : 1 ≤ attempts) (hj0 : 0 ≤ jitter) (hj1 : jitter ≤ 1) :
    (m.max_backoff ≤ m.min_backoff →
      _calculate_backoff m attempts jitter = ((m.min_backoff * 1000 : Int) : Rat)) ∧
    (m.min_backoff < m.max_backoff →
      ((m.min_backoff * 1000 : Int) : Rat) ≤ _calculate_backoff m attempts jitter ∧
        _calculate_backoff m attempts jitter ≤ ((m.max_backoff * 1000 : Int) : Rat)) :=
  ⟨fun h => calculate_backoff_degenerate m attempts jitter h,
   fun h => ⟨calculate_backoff_ge_min m attempts jitter hj0,
             calculate_backoff_le_max m attempts jitter h hj0 hj1⟩⟩

/-- Witness for C3 at the provider defaults (30 s, 600 s), attempts 2 and
jitter one half. -/
theorem calculate_backoff_bounds_witness :
    (1 ≤ 2 ∧ (0 : Rat) ≤ 1 / 2 ∧ (1 / 2 : Rat) ≤ 1) ∧
    ((mgr0.max_backoff ≤ mgr0.min_backoff →
      _calculate_backoff mgr0 2 (1 / 2) = ((mgr0.min_backoff * 1000 : Int) : Rat)) ∧
     (mgr0.min_backoff < mgr0.max_backoff →
      ((mgr0.min_backoff * 1000 : Int) : Rat) ≤ _calculate_backoff mgr0 2 (1 / 2) ∧
        _calculate_backoff mgr0 2 (1 / 2) ≤ ((mgr0.max_backoff * 1000 : Int) : Rat))) :=
  ⟨⟨by norm_num, by norm_num, by norm_num⟩,
   calculate_backoff_bounds mgr0 2 (1 / 2) (by norm_num) (by norm_num) (by norm_num)⟩

/-- C4: `get_active_clients` returns exactly the managed endpoints whose
`backoff_end_time` is at or before the current time, in the original
configured order (it equals the order-preserving filter of the client list,
so membership is exactly the eligibility condition and the result is a
sublist of the configured list). -/
theorem get_active_clients_filter_order (m : ReplicaClientManager) (now_ms : Rat) :
    get_active_clients m now_ms
      = m.replica_clients.filter (fun client => decide (client.backoff_end_time ≤ now_ms)) ∧
    (∀ client, client ∈ get_active_clients m now_ms ↔
      client ∈ m.replica_clients ∧ client.backoff_end_time ≤ now_ms) ∧
    (get_active_clients m now_ms).Sublist m.replica_clients := by
  have h : get_active_clients m now_ms
      = m.replica_clients.filter (fun client => decide (client.backoff_end_time ≤ now_ms)) := by
    unfold get_active_clients
    rw [foldl_active_eq_filter]
    simp
  refine ⟨h, ?_, ?_⟩
  · intro client
    rw [h, List.mem_filter]
    simp
  · rw [h]
    exact List.filter_sublist _

/-- C5: `_check_configuration_setting` on a 404 returns `(true, none)` when a
prior etag was known and `(false, none)` when none was, without raising; and
it raises exactly when the transport raises a non-404 error, propagating that
status unchanged. -/
theorem check_configuration_setting_error_contract (t : Transport) (key label : String)
    (etag : Option String) :
    (t.getConditional key label etag = .httpError 404 →
      _check_configuration_setting t key label etag = .ok (etag.isSome, none)) ∧
    (∀ status, status ≠ 404 → t.getConditional key label etag = .httpError status →
      _check_configuration_setting t key label etag = .error (.http status)) ∧
    ((∃ e, _check_configuration_setting t key label etag = .error e) ↔
      (∃ status, status ≠ 404 ∧ t.getConditional key label etag = .httpError status)) := by
  refine ⟨?_, ?_, ?_⟩
  · intro h
    cases etag <;> simp [_check_configuration_setting, h]
  · intro status hne h
    simp [_check_configuration_setting, h, hne]
  · constructor
    · rintro ⟨e, he⟩
      revert he
      cases hg : t.getConditional key label etag with
      | result s =>
        cases s <;> simp [_check_configuration_setting, hg]
      | httpError status =>
        by_cases h4 : status = 404
        · subst h4
          cases etag <;> simp [_check_configuration_setting, hg]
        · intro _
          exact ⟨status, h4, rfl⟩
    · rintro ⟨status, hne, h⟩
      exact ⟨.http status, by simp [_check_configuration_setting, h, hne]⟩

/-- C7 counterexample: with the provider default bounds (30 s, 600 s), two
consecutive `backoff` calls at the same wall-clock instant (time
non-decreasing) with jitter draws 1 then 0 — both within `[0, 1]` — make
`backoff_end_time` strictly decrease (60000 ms down to 30000 ms), refuting
the claim that it never decreases. -/
theorem backoff_end_time_can_decrease_cex :
    ((0 : Rat) ≤ 0 ∧ (0 : Rat) ≤ 1 ∧ (1 : Rat) ≤ 1 ∧ (0 : Rat) ≤ 0 ∧ (0 : Rat) ≤ 1) ∧
    (backoff mgr0 (backoff mgr0 client0 0 1) 0 0).backoff_end_time
      < (backoff mgr0 client0 0 1).backoff_end_time := by
  constructor
  · norm_num
  · norm_num [backoff, _calculate_backoff, mgr0, client0]

/-- C7 as amended: the realized `backoff_end_time` can decrease between
consecutive `backoff` calls when the jitter draw drops; what the code does
guarantee is the floor — every `backoff` call with a nonnegative jitter draw
sets `backoff_end_time` to at least the call-time plus
`min_backoff * 1000` milliseconds, so the guaranteed lower edge of the
backoff window is non-decreasing as wall-clock time advances. -/
theorem backoff_end_time_floor (m : ReplicaClientManager) (client : ReplicaClient)
    (now_ms jitter : Rat) (hj0 : 0 ≤ jitter) :
    now_ms + ((m.min_backoff * 1000 : Int) : Rat)
      ≤ (backoff m client now_ms jitter).backoff_end_time := by
  have h := calculate_backoff_ge_min m (client.failed_attempts + 1) jitter hj0
  show now_ms + ((m.min_backoff * 1000 : Int) : Rat)
      ≤ now_ms + _calculate_backoff m (client.failed_attempts + 1) jitter
  linarith

/-- Witness for the amended C7 at the provider defaults, call time 1000 ms
and jitter one half. -/
theorem backoff_end_time_floor_witness :
    (0 : Rat) ≤ 1 / 2 ∧
    (1000 : Rat) + ((mgr0.min_backoff * 1000 : Int) : Rat)
      ≤ (backoff mgr0 client0 1000 (1 / 2)).backoff_end_time :=
  ⟨by norm_num, backoff_end_time_floor mgr0 client0 1000 (1 / 2) (by norm_num)⟩

/-- C8 counterexample: with two managed endpoints where the first one's
underlying close raises, `close` stops after the first endpoint — the trace
of invoked closes is `["a"]`, not both endpoints — refuting the claim that
the remaining endpoints' clients are still closed. -/
theorem close_aborts_on_error_cex :
    close_clients [clientA, clientB] = (["a"], true) ∧
    (["a"] : List String) ≠ [clientA.endpoint, clientB.endpoint] :=
  ⟨rfl, by decide⟩

/-- C8 as amended: `close` invokes the underlying close of the managed
endpoints in configured order only up to and including the first one that
raises, and that exception propagates, leaving the remaining endpoints'
clients unclosed; when no close raises, every endpoint's client is closed in
order. -/
theorem close_clients_stops_at_first_error (good : List ReplicaClient)
    (bad : ReplicaClient) (rest : List ReplicaClient)
    (hgood : ∀ c ∈ good, c.close_raises = false) :
    close_clients good = (good.map (fun c => c.endpoint), false) ∧
    (bad.close_raises = true →
      close_clients (good ++ bad :: rest)
        = (good.map (fun c => c.endpoint) ++ [bad.endpoint], true)) :=
  ⟨close_clients_all_ok good hgood,
   fun hbad => close_clients_stops bad rest hbad good hgood⟩

/-- Witness for the amended C8: one well-behaved endpoint followed by one
whose close raises. -/
theorem close_clients_stops_at_first_error_witness :
    (∀ c ∈ [clientB], c.close_raises = false) ∧
    (close_clients [clientB] = ([clientB].map (fun c => c.endpoint), false) ∧
     (clientA.close_raises = true →
       close_clients ([clientB] ++ clientA :: [])
         = ([clientB].map (fun c => c.endpoint) ++ [clientA.endpoint], true))) :=
  ⟨by decide, close_clients_stops_at_first_error [clientB] clientA [] (by decide)⟩

/-- C6: `refresh_configuration_settings` performs at most one full reload per
call — its result is fully characterized by a single
`load_configuration_settings` call when any watched pair is detected as
changed (the returned dict and entry list are that one reload's), and by the
no-change triple `(false, refresh_on, [])` with the caller's dict and the
heap untouched when no pair is detected as changed (given that no watched
check raises). -/
theorem refresh_configuration_settings_single_reload (t : Transport)
    (selects : List SettingSelector) (refreshRef : Nat)
    (sentinel_keys_arg : Option Nat) (σ : Store)
    (hok : ∀ p ∈ σ refreshRef,
      ∃ r, _check_configuration_setting t p.1.1 p.1.2 p.2 = .ok r) :
    refresh_configuration_settings t selects refreshRef sentinel_keys_arg σ
      = if (σ refreshRef).any (fun p => checkChanged t p) then
          .ok ((true,
                (load_configuration_settings t selects refreshRef sentinel_keys_arg σ).2.1,
                (load_configuration_settings t selects refreshRef sentinel_keys_arg σ).1),
               (load_configuration_settings t selects refreshRef sentinel_keys_arg σ).2.2)
        else .ok ((false, refreshRef, []), σ) :=
  refresh_cfg_characterization t selects refreshRef sentinel_keys_arg σ hok

/-- Witness for C6: one watched pair reporting not modified yields the
no-change triple with the caller's dict returned untouched and no reload. -/
theorem refresh_configuration_settings_single_reload_witness :
    refresh_configuration_settings transportNoChange [selectAll] 0 none storeOnePair
      = .ok ((false, 0, []), storeOnePair) := by
  have hok : ∀ p ∈ storeOnePair 0,
      ∃ r, _check_configuration_setting transportNoChange p.1.1 p.1.2 p.2 = .ok r := by
    intro p hp
    simp only [storeOnePair, List.mem_singleton] at hp
    subst hp
    exact ⟨(false, none), rfl⟩
  rw [refresh_configuration_settings_single_reload transportNoChange [selectAll] 0 none
    storeOnePair hok]
  rfl

/-- C9: on the change-detected path, when no separate `sentinel_keys`
argument is supplied, `refresh_configuration_settings` returns the very
reference it was given as `refresh_on` — the caller's dict object, not a
fresh copy — and the heap update writes the reloaded entries' etags in place
at exactly that reference (the `storeWrite` at `refreshRef` leaves every
other reference untouched). -/
theorem refresh_configuration_settings_aliases_refresh_on (t : Transport)
    (selects : List SettingSelector) (refreshRef : Nat) (σ : Store)
    (hok : ∀ p ∈ σ refreshRef,
      ∃ r, _check_configuration_setting t p.1.1 p.1.2 p.2 = .ok r)
    (hch : (σ refreshRef).any (fun p => checkChanged t p) = true) :
    refresh_configuration_settings t selects refreshRef none σ
      = .ok ((true, refreshRef, listedSettings t selects),
             storeWrite σ refreshRef
               (updateWatchedEtags (σ refreshRef) (listedSettings t selects))) := by
  rw [refresh_cfg_characterization t selects refreshRef none σ hok, if_pos hch,
    load_cfg_alias]

/-- Witness for C9: the watched pair has changed, the reload lists the
replacement entry, and the returned dict reference is the input reference 0
whose content now carries the reloaded etag. -/
theorem refresh_configuration_settings_aliases_refresh_on_witness :
    refresh_configuration_settings transportChanged [selectAll] 0 none storeOnePair
      = .ok ((true, 0, listedSettings transportChanged [selectAll]),
             storeWrite storeOnePair 0
               (updateWatchedEtags (storeOnePair 0)
                 (listedSettings transportChanged [selectAll]))) := by
  have hok : ∀ p ∈ storeOnePair 0,
      ∃ r, _check_configuration_setting transportChanged p.1.1 p.1.2 p.2 = .ok r := by
    intro p hp
    simp only [storeOnePair, List.mem_singleton] at hp
    subst hp
    exact ⟨(true, some newSetting), rfl⟩
  exact refresh_configuration_settings_aliases_refresh_on transportChanged [selectAll] 0
    storeOnePair hok rfl

lemma load_ff_flags_loop_error {α : Type} (jl : String → Option α) (track : Bool) :
    ∀ (flags : List ConfigurationSetting) (acc : List α × SentinelMap),
      (∃ f ∈ flags, jl f.value = none) →
      load_ff_flags_loop jl track flags acc = .error .jsonDecode := by
  intro flags
  induction flags with
  | nil => intro acc h; simp at h
  | cons f rest ih =>
    intro acc h
    cases hjf : jl f.value with
    | none => simp [load_ff_flags_loop, hjf]
    | some v =>
      obtain ⟨f0, hf0, hbad⟩ := h
      rcases List.mem_cons.mp hf0 with h1 | h1
      · subst h1
        rw [hjf] at hbad
        simp at hbad
      · simp only [load_ff_flags_loop, hjf]
        exact ih _ ⟨f0, h1, hbad⟩

lemma load_ff_flags_loop_some {α : Type} (jl : String → Option α) (track : Bool) :
    ∀ (flags : List ConfigurationSetting) (acc : List α × SentinelMap),
      (∀ f ∈ flags, jl f.value ≠ none) →
      ∃ acc2, load_ff_flags_loop jl track flags acc = .ok acc2 := by
  intro flags
  induction flags with
  | nil => intro acc _; exact ⟨acc, rfl⟩
  | cons f rest ih =>
    intro acc h
    cases hjf : jl f.value with
    | none => exact absurd hjf (h f (List.mem_cons_self _ _))
    | some v =>
      obtain ⟨acc2, h2⟩ := ih _ (fun x hx => h x (List.mem_cons_of_mem _ hx))
      refine ⟨acc2, ?_⟩
      simp only [load_ff_flags_loop, hjf]
      exact h2

lemma load_ff_selector_loop_error {α : Type} (jl : String → Option α) (t : Transport)
    (track : Bool) :
    ∀ (selectors : List SettingSelector) (acc : List α × SentinelMap),
      (∃ sel ∈ selectors,
        ∃ f ∈ t.list (FEATURE_FLAG_PREF ++ sel.key_filter) sel.label_filter,
          jl f.value = none) →
      load_ff_selector_loop jl t track selectors acc = .error .jsonDecode := by
  intro selectors
  induction selectors with
  | nil => intro acc h; simp at h
  | cons sel rest ih =>
    intro acc h
    by_cases hhead : ∃ f ∈ t.list (FEATURE_FLAG_PREF ++ sel.key_filter) sel.label_filter,
        jl f.value = none
    · have he := load_ff_flags_loop_error jl track _ acc hhead
      simp [load_ff_selector_loop, he]
    · push_neg at hhead
      obtain ⟨acc2, h2⟩ := load_ff_flags_loop_some jl track _ acc hhead
      simp only [load_ff_selector_loop, h2]
      apply ih
      obtain ⟨sel0, hsel0, hf⟩ := h
      rcases List.mem_cons.mp hsel0 with h1 | h1
      · subst h1
        obtain ⟨f0, hf0, hbad⟩ := hf
        exact absurd hbad (hhead f0 hf0)
      · exact ⟨sel0, h1, hf⟩

/-- C10: if some feature-flag entry listed for the selectors has a value the
JSON decoder rejects, `load_feature_flags` raises the decoding error and
returns no partial result (the error carries no flag list, so flags decoded
before the failing entry are discarded), and the reload path of
`refresh_feature_flags` — entered on any non-empty watched map whose first
check returns — propagates the same error. -/
theorem load_feature_flags_invalid_json_raises {α : Type} (jsonLoads : String → Option α)
    (t : Transport) (feature_flag_selectors : List SettingSelector)
    (feature_flag_refresh_enabled : Bool)
    (hbad : ∃ sel ∈ feature_flag_selectors,
      ∃ f ∈ t.list (FEATURE_FLAG_PREF ++ sel.key_filter) sel.label_filter,
        jsonLoads f.value = none) :
    load_feature_flags jsonLoads t feature_flag_selectors feature_flag_refresh_enabled
      = .error .jsonDecode ∧
    ∀ (p : (String × String) × Option String)
      (rest : List ((String × String) × Option String)),
      (∃ r, _check_configuration_setting t p.1.1 p.1.2 p.2 = .ok r) →
      refresh_feature_flags jsonLoads t (p :: rest) feature_flag_selectors
        = .error .jsonDecode := by
  have h1 : load_feature_flags jsonLoads t feature_flag_selectors
      feature_flag_refresh_enabled = .error .jsonDecode :=
    load_ff_selector_loop_error jsonLoads t feature_flag_refresh_enabled
      feature_flag_selectors ([], []) hbad
  refine ⟨h1, ?_⟩
  intro p rest hp
  obtain ⟨⟨key, label⟩, etag⟩ := p
  obtain ⟨r, hr⟩ := hp
  have hr2 : _check_configuration_setting t key label etag = .ok r := hr
  have h2 : load_feature_flags jsonLoads t feature_flag_selectors true
      = .error .jsonDecode :=
    load_ff_selector_loop_error jsonLoads t true feature_flag_selectors ([], []) hbad
  obtain ⟨changed, us⟩ := r
  simp [refresh_feature_flags, refresh_ff_loop, hr2, h2]

/-- Witness for C10: the transport lists one entry whose value `"bad"` the
decoder rejects. -/
theorem load_feature_flags_invalid_json_raises_witness :
    load_feature_flags jsonLoadsBad transportBadJson [selectAll] true
      = .error .jsonDecode ∧
    ∀ (p : (String × String) × Option String)
      (rest : List ((String × String) × Option String)),
      (∃ r, _check_configuration_setting transportBadJson p.1.1 p.1.2 p.2 = .ok r) →
      refresh_feature_flags jsonLoadsBad transportBadJson (p :: rest) [selectAll]
        = .error .jsonDecode :=
  load_feature_flags_invalid_json_raises jsonLoadsBad transportBadJson [selectAll] true
    ⟨selectAll, List.mem_singleton.mpr rfl, badEntry, List.mem_singleton.mpr rfl, rfl⟩
